import Mathlib

/-!
Verification of the event-multiplexing and update-dispatch runtime of the
rusty-bar status bar (src/widget.rs), as a shallow embedding in Lean 4.

The embedding follows the source closely:

* `Cnx` mirrors the registration facade `struct Cnx` of src/widget.rs with
  its four fields and the methods `new`, `with_width`, `with_offset`,
  `add_widget`.
* A widget is represented by the one capability the core uses: its
  `into_stream` result.  A stream is embedded as a finite list of
  `Except Err Batch` items (the prefix of emissions an execution consumes);
  an ended stream is the empty list.
* The render surface `Bar` lives in a module that is not part of the core
  sources, so its slot store is modelled from the spec: an ordered list of
  per-slot content batches, with `add_content` appending a slot and
  returning its index, `update_content` a pure overwrite of one slot, and
  `process_event` leaving slot contents untouched (the spec states slots
  are mutated only by `update_content`).
* The stream multiplexer (tokio `StreamMap`) is embedded as an association
  list from slot index to remaining stream, with the documented semantics:
  `next()` pops one ready item from one constituent stream, and a
  constituent is removed once it has no more items.
* `run_inner` is split into its two phases exactly as in the source: an
  initialization function (`runInner`) that constructs the bar, allocates
  one slot per widget in registration order while converting each widget
  into a stream, then constructs the event stream; and a loop body
  (`loopStep`) for one round of the `tokio::select!` between the XCB event
  branch and the widget branch.  Environment nondeterminism (which branch
  the select resolves, whether an external `Bar` call fails) is made
  explicit as a `Choice` fed to the step function; a whole run is the fold
  `runSched` over a list of choices.  Calls into the outside world are
  recorded in an `Effect` trace so that claims about what was or was not
  invoked are statable.
-/

/-- Styled text fragment; opaque payload to the core (`Text` in src/text.rs). -/
abbrev Text := String

/-- One render-content batch: the `Vec<Text>` item a widget emits. -/
abbrev Batch := List Text

/-- Error payload (`anyhow::Error`); opaque to the core, only moved and logged. -/
abbrev Err := String

/-- An XCB system event; opaque to the core, only handed to the bar. -/
abbrev Event := Nat

/-- The embedded `WidgetStream`: the finite prefix of `Result<Vec<Text>>`
items a run consumes from one widget; `[]` is an ended stream. -/
abbrev WStream := List (Except Err Batch)

deriving instance DecidableEq for Except

/-- A widget, reduced to the single capability the core uses
(trait `Widget`, src/widget.rs line 25): converting itself, once, into a
stream — which may itself fail at construction time. -/
structure Widget where
  intoStream : Except Err WStream
deriving DecidableEq, Repr

/-- Bar position (`Position` in src/bar.rs, not under the core sources).
Modelled from the spec: `Position ∈ {Top, Bottom}`. -/
inductive Position where
  | top
  | bottom
deriving DecidableEq, Repr

/-- Bar offset (`Offset` in src/bar.rs, not under the core sources).
Modelled from the spec: `Offset {x, y}` for multi-monitor placement; the
Rust `Offset::default()` used by `Cnx::new` is the derived zero default. -/
structure Offset where
  x : Int
  y : Int
deriving DecidableEq, Repr

/-- The derived `Offset::default()`: both coordinates zero. -/
def Offset.default : Offset := ⟨0, 0⟩

/-- The registration facade `struct Cnx` (src/widget.rs lines 48-59). -/
structure Cnx where
  position : Position
  widgets : List Widget
  offset : Offset
  width : Option Nat
deriving DecidableEq, Repr

namespace Cnx

/-- `Cnx::new` (src/widget.rs lines 68-76): fresh facade with the given
position, empty widget list, default offset and no width. -/
def new (position : Position) : Cnx :=
  { position := position
    widgets := []
    offset := Offset.default
    width := none }

/-- `Cnx::with_width` (src/widget.rs lines 85-87): functional update of the
`width` field, all other fields taken from `self`. -/
def with_width (self : Cnx) (width : Option Nat) : Cnx :=
  { self with width := width }

/-- `Cnx::with_offset` (src/widget.rs lines 96-101): functional update of
the `offset` field, all other fields taken from `self`. -/
def with_offset (self : Cnx) (x y : Int) : Cnx :=
  { self with offset := ⟨x, y⟩ }

/-- `Cnx::add_widget` (src/widget.rs lines 109-114): push the widget at the
end of the ordered list. -/
def add_widget (self : Cnx) (w : Widget) : Cnx :=
  { self with widgets := self.widgets ++ [w] }

end Cnx

/-- The render surface's slot store (`Bar` in src/bar.rs, not under the
core sources).  Modelled from the spec: a parallel ordered array of
current content, index-aligned with `Slot`, mutated only by
`update_content`. -/
structure Bar0 where
  contents : List Batch
deriving DecidableEq, Repr

namespace Bar0

/-- `Bar::add_content` as used at src/widget.rs line 136.  Modelled from
the spec: `allocate_slot(initial_content) -> Slot` appends a slot and
returns its 0-based index. -/
def add_content (b : Bar0) (v : Batch) : Bar0 × Nat :=
  ({ contents := b.contents ++ [v] }, b.contents.length)

/-- `Bar::update_content` as used at src/widget.rs line 157.  Modelled
from the spec: a pure overwrite of slot `s` with batch `v`, no
accumulation. -/
def update_content (b : Bar0) (s : Nat) (v : Batch) : Bar0 :=
  { contents := b.contents.set s v }

/-- `Bar::process_event` as used at src/widget.rs line 146.  Modelled from
the spec: handles one system event; slot contents are mutated only by
`update_content`, so the slot store is unchanged. -/
def process_event (b : Bar0) (_e : Event) : Bar0 := b

end Bar0

/-- The stream multiplexer's state (tokio `StreamMap<usize, WidgetStream>`,
src/widget.rs line 134): an ordered association list from slot index to
the remaining stream of that slot. -/
abbrev SMap := List (Nat × WStream)

/-- Look up the stream stored under slot `s` (first matching entry). -/
def smLookup : SMap → Nat → Option WStream
  | [], _ => none
  | (k, v) :: r, s => if k = s then some v else smLookup r s

/-- Remove the entry for slot `s` (a constituent stream that ended is
dropped from the multiplexer). -/
def smRemove (m : SMap) (s : Nat) : SMap :=
  m.filter (fun kv => kv.1 ≠ s)

/-- Replace the stream stored under slot `s`. -/
def smSet (m : SMap) (s : Nat) (v : WStream) : SMap :=
  m.map (fun kv => if kv.1 = s then (s, v) else kv)

/-- The state of the `Running` phase of `run_inner` (src/widget.rs lines
141-165): the bar, the multiplexer of live widget streams, and the prefix
of XCB events the event stream still has to deliver. -/
structure LoopState where
  bar : Bar0
  widgets : SMap
  events : List Event
deriving DecidableEq, Repr

/-- One resolution of the `tokio::select!` at src/widget.rs line 143,
together with the environment's verdict on the fallible `Bar` call made in
that branch: `event ok` resolves the XCB-event branch (`ok` is whether
`bar.process_event` succeeds), `widget s ok` resolves the multiplexer
branch at slot `s` (`ok` is whether `bar.update_content` succeeds, when it
is reached). -/
inductive Choice where
  | event (ok : Bool)
  | widget (s : Nat) (ok : Bool)
deriving DecidableEq, Repr

/-- Trace of calls the runtime makes into the outside world: converting a
widget into its stream at registration, calling `update_content`, calling
`process_event`, or logging a failing widget item. -/
inductive Effect where
  | intoStream (slot : Nat)
  | updateContent (slot : Nat) (b : Batch) (ok : Bool)
  | processEvent (e : Event) (ok : Bool)
  | widgetError (slot : Nat)
deriving DecidableEq, Repr

/-- Outcome of one round of the select-loop body: either the loop
continues with a successor state, or the body returns out of the loop.
The source loop (src/widget.rs lines 142-164) has no `break` or `return`,
so `loopStep` below never produces `ret`. -/
inductive LoopOutcome where
  | continue (st : LoopState)
  | ret (r : Except Err Unit)
deriving DecidableEq, Repr

/-- The successor state of an outcome (`ret` never occurs; it is mapped to
an inert empty state). -/
def LoopOutcome.st : LoopOutcome → LoopState
  | .continue s => s
  | .ret _ => ⟨⟨[]⟩, [], []⟩

/-- One round of the select-loop body (src/widget.rs lines 142-164).

The XCB branch (`Some(event) = event_stream.next()`) pops the next event
and hands it to `bar.process_event`; an error is logged and absorbed.  The
widget branch (`Some((idx, result)) = widgets.next()`) pops the next ready
item of the chosen slot's stream; a constituent stream with no further
items is removed from the multiplexer; an `Err` item is logged only, an
`Ok` batch is passed to `bar.update_content`, whose own error is again
logged and absorbed.  A choice whose branch is not ready (no pending
event, or no live stream at that slot) is one the select never resolves;
it is embedded as a no-op continuation. -/
def loopStep (st : LoopState) (c : Choice) : LoopOutcome × List Effect :=
  match c with
  | .event _ok =>
    match st.events with
    | [] => (.continue st, [])
    | e :: rest =>
      if _ok then
        (.continue { st with bar := st.bar.process_event e, events := rest },
         [.processEvent e true])
      else
        (.continue { st with events := rest }, [.processEvent e false])
  | .widget s updOk =>
    match smLookup st.widgets s with
    | none => (.continue st, [])
    | some [] => (.continue { st with widgets := smRemove st.widgets s }, [])
    | some (item :: rest) =>
      let widgets' := if rest.isEmpty then smRemove st.widgets s
                      else smSet st.widgets s rest
      match item with
      | .error _ => (.continue { st with widgets := widgets' }, [.widgetError s])
      | .ok texts =>
        if updOk then
          (.continue { st with bar := st.bar.update_content s texts,
                               widgets := widgets' },
           [.updateContent s texts true])
        else
          (.continue { st with widgets := widgets' },
           [.updateContent s texts false])

/-- Iterate the select-loop over a schedule of choices, accumulating the
effect trace.  If the body ever returned, iteration would stop with that
state; the body never does. -/
def runSched (st : LoopState) : List Choice → LoopState × List Effect
  | [] => (st, [])
  | c :: cs =>
    match loopStep st c with
    | (.continue st', effs) =>
      let (stf, effs') := runSched st' cs
      (stf, effs ++ effs')
    | (.ret _, effs) => (st, effs)

/-- The registration loop of `run_inner` (src/widget.rs lines 134-138):
for each widget in registration order, allocate a bar slot with empty
initial content, then convert the widget into its stream and insert it
into the multiplexer under that slot; a failing `into_stream` aborts with
its error via `?`. -/
def initLoop : Bar0 → SMap → List Widget → Except Err (Bar0 × SMap) × List Effect
  | bar, acc, [] => (.ok (bar, acc), [])
  | bar, acc, w :: ws =>
    let (bar', idx) := bar.add_content []
    match w.intoStream with
    | .error e => (.error e, [.intoStream idx])
    | .ok s =>
      let (res, effs) := initLoop bar' (acc ++ [(idx, s)]) ws
      (res, .intoStream idx :: effs)

/-- The `Initializing` phase of `run_inner` (src/widget.rs lines 131-140),
up to entering the `Running` loop.  `barNew` is the environment's verdict
on `Bar::new(position, width, offset)` (the X connection may fail to be
established; on success the fresh bar has no slots), `evNew` the verdict
on `XcbEventStream::new` together with the events it will deliver.  The
payload of a successful result is the `LoopState` in which the select-loop
starts. -/
def runInner (cnx : Cnx) (barNew : Except Err Unit)
    (evNew : Except Err (List Event)) : Except Err LoopState × List Effect :=
  match barNew with
  | .error e => (.error e, [])
  | .ok _ =>
    match initLoop ⟨[]⟩ [] cnx.widgets with
    | (.error e, effs) => (.error e, effs)
    | (.ok (bar, wmap), effs) =>
      match evNew with
      | .error e => (.error e, effs)
      | .ok evs => (.ok ⟨bar, wmap, evs⟩, effs)

/-- The `Ok` batches of a stream, in emission order. -/
def okBatches (ws : WStream) : List Batch :=
  ws.filterMap (fun it => match it with | .ok b => some b | .error _ => none)

/-- The batches passed to `bar.update_content` for slot `s` in a trace, in
call order. -/
def updCalls (s : Nat) (effs : List Effect) : List Batch :=
  effs.filterMap (fun e =>
    match e with
    | .updateContent t b _ => if t = s then some b else none
    | _ => none)

/-- The remaining stream of slot `s` (`[]` once it ended or was removed). -/
def streamOf (st : LoopState) (s : Nat) : WStream :=
  (smLookup st.widgets s).getD []

/-! ### Association-list lemmas for the multiplexer -/

lemma smRemove_cons (kv : Nat × WStream) (r : SMap) (s : Nat) :
    smRemove (kv :: r) s =
      if kv.1 = s then smRemove r s else kv :: smRemove r s := by
  by_cases h : kv.1 = s <;> simp [smRemove, List.filter_cons, h]

lemma smSet_cons (kv : Nat × WStream) (r : SMap) (s : Nat) (v : WStream) :
    smSet (kv :: r) s v = (if kv.1 = s then (s, v) else kv) :: smSet r s v :=
  rfl

lemma smLookup_smRemove_self (m : SMap) (s : Nat) :
    smLookup (smRemove m s) s = none := by
  induction m with
  | nil => rfl
  | cons kv r ih =>
    rw [smRemove_cons]
    by_cases h : kv.1 = s
    · rw [if_pos h]; exact ih
    · rw [if_neg h]; simp only [smLookup]; rw [if_neg h]; exact ih

lemma smLookup_smRemove_ne (m : SMap) (s t : Nat) (h : t ≠ s) :
    smLookup (smRemove m s) t = smLookup m t := by
  induction m with
  | nil => rfl
  | cons kv r ih =>
    rw [smRemove_cons]
    by_cases hk : kv.1 = s
    · have hkt : kv.1 ≠ t := by rw [hk]; exact fun he => h he.symm
      rw [if_pos hk, ih]
      simp only [smLookup]
      rw [if_neg hkt]
    · rw [if_neg hk]
      simp only [smLookup, ih]

lemma smLookup_smSet_self (m : SMap) (s : Nat) (v w : WStream)
    (h : smLookup m s = some w) :
    smLookup (smSet m s v) s = some v := by
  induction m with
  | nil => simp [smLookup] at h
  | cons kv r ih =>
    rw [smSet_cons]
    by_cases hk : kv.1 = s
    · rw [if_pos hk]; simp [smLookup]
    · rw [if_neg hk]
      simp only [smLookup] at h
      rw [if_neg hk] at h
      simp only [smLookup]
      rw [if_neg hk]
      exact ih h

lemma smLookup_smSet_ne (m : SMap) (s t : Nat) (v : WStream) (h : t ≠ s) :
    smLookup (smSet m s v) t = smLookup m t := by
  induction m with
  | nil => rfl
  | cons kv r ih =>
    rw [smSet_cons]
    by_cases hk : kv.1 = s
    · have hst : s ≠ t := fun he => h he.symm
      have hkt : kv.1 ≠ t := by rw [hk]; exact hst
      rw [if_pos hk]
      simp only [smLookup]
      rw [if_neg hst, if_neg hkt]
      exact ih
    · rw [if_neg hk]
      simp only [smLookup, ih]

/-- The multiplexer part of the state after servicing one item of slot
`s`: the rest of the stream is stored back, or the entry dropped when the
stream has no further items — identically in the `Err`, `Ok`-and-update-
succeeded and `Ok`-and-update-failed branches of the loop body. -/
lemma loopStep_widgets_after (st : LoopState) (s : Nat) (u : Bool)
    (item : Except Err Batch) (rest : WStream)
    (hs : smLookup st.widgets s = some (item :: rest)) :
    ((loopStep st (.widget s u)).1.st).widgets =
      if rest.isEmpty then smRemove st.widgets s
      else smSet st.widgets s rest := by
  cases item with
  | error e => simp [loopStep, hs, LoopOutcome.st]
  | ok b => cases u <;> simp [loopStep, hs, LoopOutcome.st]

lemma updCalls_append (s : Nat) (a b : List Effect) :
    updCalls s (a ++ b) = updCalls s a ++ updCalls s b := by
  simp [updCalls, List.filterMap_append]

/-- The multiplexer after servicing one item of slot `t`: slot `t` holds
the rest of its stream (or is removed when the stream ended), every other
slot is untouched. -/
lemma smLookup_after_pop (wm : SMap) (t : Nat) (item : Except Err Batch)
    (rest : WStream) (s : Nat) (hl : smLookup wm t = some (item :: rest)) :
    smLookup (if rest.isEmpty then smRemove wm t else smSet wm t rest) s =
      if s = t then (if rest.isEmpty then none else some rest)
      else smLookup wm s := by
  by_cases hst : s = t
  · subst hst
    cases rest with
    | nil => simp [smLookup_smRemove_self]
    | cons a as => simp [smLookup_smSet_self wm s (a :: as) _ hl]
  · cases rest with
    | nil => simp [hst, smLookup_smRemove_ne wm t s hst]
    | cons a as => simp [hst, smLookup_smSet_ne wm t s (a :: as) hst]

/-- The select-loop body never returns: every branch of the source loop
(src/widget.rs lines 142-164) ends by continuing the loop. -/
lemma loopStep_continue (st : LoopState) (c : Choice) :
    ∃ st' effs, loopStep st c = (.continue st', effs) := by
  cases c with
  | event ok =>
    cases hev : st.events with
    | nil => exact ⟨st, [], by simp [loopStep, hev]⟩
    | cons e rest =>
      cases ok
      · exact ⟨{ st with events := rest }, [.processEvent e false],
          by simp [loopStep, hev]⟩
      · exact ⟨{ st with bar := st.bar.process_event e, events := rest },
          [.processEvent e true], by simp [loopStep, hev]⟩
  | widget s updOk =>
    cases hl : smLookup st.widgets s with
    | none => exact ⟨st, [], by simp [loopStep, hl]⟩
    | some l =>
      cases l with
      | nil => exact ⟨{ st with widgets := smRemove st.widgets s }, [],
          by simp [loopStep, hl]⟩
      | cons item rest =>
        cases item with
        | error e =>
          exact ⟨{ st with widgets := if rest.isEmpty then smRemove st.widgets s
                                      else smSet st.widgets s rest },
            [.widgetError s], by simp [loopStep, hl]⟩
        | ok b =>
          cases updOk
          · exact ⟨{ st with widgets := if rest.isEmpty then smRemove st.widgets s
                                        else smSet st.widgets s rest },
              [.updateContent s b false], by simp [loopStep, hl]⟩
          · exact ⟨{ st with bar := st.bar.update_content s b,
                             widgets := if rest.isEmpty then smRemove st.widgets s
                                        else smSet st.widgets s rest },
              [.updateContent s b true], by simp [loopStep, hl]⟩


/-- One round of the loop conserves the `Ok` batches of each slot: what a
slot's stream still holds before the step equals the `update_content`
calls the step makes for that slot followed by what the stream still
holds afterwards. -/
lemma okBatches_step (st : LoopState) (c : Choice) (s : Nat) :
    okBatches (streamOf st s) =
      updCalls s (loopStep st c).2 ++
        okBatches (streamOf (loopStep st c).1.st s) := by
  cases c with
  | event ok =>
    cases hev : st.events with
    | nil => simp [loopStep, hev, updCalls, LoopOutcome.st]
    | cons e rest =>
      cases ok <;>
        simp [loopStep, hev, updCalls, LoopOutcome.st, streamOf]
  | widget t updOk =>
    cases hl : smLookup st.widgets t with
    | none => simp [loopStep, hl, updCalls, LoopOutcome.st]
    | some l =>
      cases l with
      | nil =>
        by_cases hst : s = t
        · subst hst
          simp [loopStep, hl, updCalls, LoopOutcome.st, streamOf,
                smLookup_smRemove_self, okBatches]
        · simp [loopStep, hl, updCalls, LoopOutcome.st, streamOf,
                smLookup_smRemove_ne st.widgets t s hst]
      | cons item rest =>
        have hpop := smLookup_after_pop st.widgets t item rest s hl
        by_cases hst : s = t
        · subst hst
          cases item with
          | error e =>
            cases rest with
            | nil =>
              simp [loopStep, hl, updCalls, LoopOutcome.st, streamOf,
                    okBatches, smLookup_smRemove_self]
            | cons a as =>
              simp [loopStep, hl, updCalls, LoopOutcome.st, streamOf,
                    okBatches, smLookup_smSet_self st.widgets s (a :: as) _ hl]
          | ok b =>
            cases rest with
            | nil =>
              cases updOk <;>
                simp [loopStep, hl, updCalls, LoopOutcome.st, streamOf,
                      okBatches, smLookup_smRemove_self]
            | cons a as =>
              cases updOk <;>
                simp [loopStep, hl, updCalls, LoopOutcome.st, streamOf,
                      okBatches, smLookup_smSet_self st.widgets s (a :: as) _ hl]
        · have hts : ¬ t = s := fun he => hst he.symm
          cases item with
          | error e =>
            cases rest with
            | nil =>
              simp [loopStep, hl, updCalls, LoopOutcome.st, streamOf, hts,
                    smLookup_smRemove_ne st.widgets t s hst]
            | cons a as =>
              simp [loopStep, hl, updCalls, LoopOutcome.st, streamOf, hts,
                    smLookup_smSet_ne st.widgets t s (a :: as) hst]
          | ok b =>
            cases rest with
            | nil =>
              cases updOk <;>
                simp [loopStep, hl, updCalls, LoopOutcome.st, streamOf, hts,
                      smLookup_smRemove_ne st.widgets t s hst]
            | cons a as =>
              cases updOk <;>
                simp [loopStep, hl, updCalls, LoopOutcome.st, streamOf, hts,
                      smLookup_smSet_ne st.widgets t s (a :: as) hst]

/-- The registration loop, when every `into_stream` succeeds: starting
from a bar with `k` slots it allocates slots `k, k+1, ...` in registration
order, each initialized empty, inserts each widget's stream under its
slot, and records exactly one stream conversion per widget. -/
lemma initLoop_ok (ws : List Widget) (strs : List WStream) (bar : Bar0)
    (acc : SMap) (h : ws.map Widget.intoStream = strs.map Except.ok) :
    initLoop bar acc ws =
      (.ok (⟨bar.contents ++ List.replicate ws.length []⟩,
            acc ++ (List.range' bar.contents.length ws.length).zip strs),
       (List.range' bar.contents.length ws.length).map Effect.intoStream) := by
  induction ws generalizing strs bar acc with
  | nil =>
    cases strs with
    | nil => simp [initLoop]
    | cons sv ss => simp at h
  | cons w ws ih =>
    cases strs with
    | nil => simp at h
    | cons sv ss =>
      simp only [List.map_cons, List.cons.injEq] at h
      obtain ⟨h1, h2⟩ := h
      have hrec := ih ss ⟨bar.contents ++ [[]]⟩
        (acc ++ [(bar.contents.length, sv)]) h2
      simp [initLoop, Bar0.add_content, h1, hrec, List.range'_succ,
            List.replicate_succ, List.append_assoc]

/-- The registration loop, when the `into_stream` of the widget after
`ws₁` fails with `e`: the loop aborts with `e` via `?`, having converted
exactly the widgets up to and including the failing one, one slot each. -/
lemma initLoop_error (ws₁ : List Widget) (strs₁ : List WStream) (w : Widget)
    (ws₂ : List Widget) (bar : Bar0) (acc : SMap) (e : Err)
    (h1 : ws₁.map Widget.intoStream = strs₁.map Except.ok)
    (h2 : w.intoStream = .error e) :
    initLoop bar acc (ws₁ ++ w :: ws₂) =
      (.error e,
       (List.range' bar.contents.length (ws₁.length + 1)).map
         Effect.intoStream) := by
  induction ws₁ generalizing strs₁ bar acc with
  | nil => simp [initLoop, Bar0.add_content, h2, List.range'_succ]
  | cons v vs ih =>
    cases strs₁ with
    | nil => simp at h1
    | cons sv ss =>
      simp only [List.map_cons, List.cons.injEq] at h1
      obtain ⟨hv, hs⟩ := h1
      have hrec := ih ss ⟨bar.contents ++ [[]]⟩
        (acc ++ [(bar.contents.length, sv)]) hs
      simp [initLoop, Bar0.add_content, hv, hrec, List.range'_succ]

/-! ### Claim theorems -/

/-- C1: in the `Running` state, an `Err` item from the widget stream at
slot `s` is only logged (src/widget.rs line 155): the loop body does not
call `update_content`, the bar — hence the content of slot `s` and of
every other slot — is unchanged, and the loop continues, the multiplexer
merely advanced past the failing item so subsequent ready items are
serviced. -/
theorem widget_item_error_isolated (st : LoopState) (s : Nat) (msg : Err)
    (rest : WStream) (u : Bool)
    (h : smLookup st.widgets s = some (.error msg :: rest)) :
    loopStep st (.widget s u) =
      (.continue { st with widgets := if rest.isEmpty then smRemove st.widgets s
                                      else smSet st.widgets s rest },
       [.widgetError s]) ∧
    ((loopStep st (.widget s u)).1.st).bar = st.bar := by
  constructor
  · simp [loopStep, h]
  · simp [loopStep, h, LoopOutcome.st]

/-- Witness for `widget_item_error_isolated`: a two-slot state whose slot 0
stream yields an error; the step logs it, touches no bar content and keeps
the loop running. -/
theorem widget_item_error_isolated_witness :
    smLookup [(0, [Except.error "boom", Except.ok ["x"]]),
              (1, [Except.ok ["y"]])] 0 =
      some (Except.error "boom" :: [Except.ok ["x"]]) ∧
    (loopStep ⟨⟨[["a"], ["b"]]⟩,
        [(0, [Except.error "boom", Except.ok ["x"]]), (1, [Except.ok ["y"]])],
        [4]⟩ (.widget 0 true) =
      (.continue ⟨⟨[["a"], ["b"]]⟩,
        [(0, [Except.ok ["x"]]), (1, [Except.ok ["y"]])], [4]⟩,
       [.widgetError 0]) ∧
     ((loopStep ⟨⟨[["a"], ["b"]]⟩,
        [(0, [Except.error "boom", Except.ok ["x"]]), (1, [Except.ok ["y"]])],
        [4]⟩ (.widget 0 true)).1.st).bar = ⟨[["a"], ["b"]]⟩) :=
  ⟨by decide,
   widget_item_error_isolated
     ⟨⟨[["a"], ["b"]]⟩,
      [(0, [Except.error "boom", Except.ok ["x"]]), (1, [Except.ok ["y"]])],
      [4]⟩ 0 "boom" [Except.ok ["x"]] true (by decide)⟩

/-- C2: per-slot FIFO.  For every starting state, every interleaving of
select-branch resolutions (widget emissions racing system events, in any
order, with arbitrary update failures injected) and every slot `s`, the
`Ok` batches slot `s`'s stream held at the start equal the batches passed
to `update_content` for slot `s` during the run, in call order, followed
by the `Ok` batches its stream still holds: each widget's emissions reach
its slot in exactly the order the stream produced them, because the
multiplexer pops one item of one stream per round (src/widget.rs lines
142-164). -/
theorem per_slot_fifo (st : LoopState) (sched : List Choice) (s : Nat) :
    okBatches (streamOf st s) =
      updCalls s (runSched st sched).2 ++
        okBatches (streamOf (runSched st sched).1 s) := by
  induction sched generalizing st with
  | nil => simp [runSched, updCalls]
  | cons c cs ih =>
    obtain ⟨st', effs, hc⟩ := loopStep_continue st c
    have hstep := okBatches_step st c s
    rw [hc] at hstep
    simp only [LoopOutcome.st] at hstep
    cases hrs : runSched st' cs with
    | mk stf effs' =>
      have hrun : runSched st (c :: cs) = (stf, effs ++ effs') := by
        simp [runSched, hc, hrs]
      have hrec : okBatches (streamOf st' s) =
          updCalls s effs' ++ okBatches (streamOf stf s) := by
        simpa [hrs] using ih st'
      rw [hrun, hstep, hrec, updCalls_append, List.append_assoc]

/-- C3: registering `N` widgets and running produces exactly the slots
`0..N-1`, assigned in registration order, each bar slot starting empty and
the multiplexer holding exactly one entry per slot keyed by it
(src/widget.rs lines 134-138); and a multiplexer entry survives every loop
round until its stream ends: servicing one item of slot `s` keeps `s`
exactly when its stream has further items and never disturbs the entry of
any other slot `t`. -/
theorem slots_bijection (cnx : Cnx) (strs : List WStream) (evs : List Event)
    (st : LoopState) (s t : Nat) (it : Except Err Batch) (rest : WStream)
    (u : Bool)
    (hok : cnx.widgets.map Widget.intoStream = strs.map Except.ok)
    (hs : smLookup st.widgets s = some (it :: rest))
    (hts : t ≠ s) :
    runInner cnx (.ok ()) (.ok evs) =
      (.ok ⟨⟨List.replicate cnx.widgets.length []⟩,
            (List.range cnx.widgets.length).zip strs, evs⟩,
       (List.range cnx.widgets.length).map Effect.intoStream) ∧
    ((List.range cnx.widgets.length).zip strs).map Prod.fst =
      List.range cnx.widgets.length ∧
    smLookup ((loopStep st (.widget s u)).1.st).widgets s =
      (if rest.isEmpty then none else some rest) ∧
    smLookup ((loopStep st (.widget s u)).1.st).widgets t =
      smLookup st.widgets t := by
  have hlen : strs.length = cnx.widgets.length := by
    have := congrArg List.length hok
    simpa using this.symm
  refine ⟨?_, ?_, ?_, ?_⟩
  · have hinit := initLoop_ok cnx.widgets strs ⟨[]⟩ [] hok
    simp [runInner, hinit, List.range_eq_range']
  · exact List.map_fst_zip _ _ (by simp [hlen])
  · rw [loopStep_widgets_after st s u it rest hs,
        smLookup_after_pop st.widgets s it rest s hs]
    simp
  · rw [loopStep_widgets_after st s u it rest hs,
        smLookup_after_pop st.widgets s it rest t hs]
    simp [hts]

/-- Witness for `slots_bijection`: one registered widget gets slot 0 with
an empty initial bar slot and the single multiplexer entry; consuming its
only item removes the entry and leaves unrelated slot 1 alone. -/
theorem slots_bijection_witness :
    ([⟨Except.ok [Except.ok ["x"]]⟩] : List Widget).map Widget.intoStream =
      ([[Except.ok ["x"]]] : List WStream).map Except.ok ∧
    smLookup [(0, [Except.ok ["x"]])] 0 = some (Except.ok ["x"] :: []) ∧
    (1 : Nat) ≠ 0 ∧
    (runInner ⟨Position.top, [⟨Except.ok [Except.ok ["x"]]⟩],
        Offset.default, none⟩ (.ok ()) (.ok []) =
      (.ok ⟨⟨[[]]⟩, [(0, [Except.ok ["x"]])], []⟩, [Effect.intoStream 0]) ∧
     ((List.range 1).zip ([[Except.ok ["x"]]] : List WStream)).map Prod.fst =
       List.range 1 ∧
     smLookup ((loopStep ⟨⟨[[]]⟩, [(0, [Except.ok ["x"]])], []⟩
        (.widget 0 true)).1.st).widgets 0 = none ∧
     smLookup ((loopStep ⟨⟨[[]]⟩, [(0, [Except.ok ["x"]])], []⟩
        (.widget 0 true)).1.st).widgets 1 =
       smLookup [(0, [Except.ok ["x"]])] 1) :=
  ⟨by decide, by decide, by decide,
   slots_bijection
     ⟨Position.top, [⟨Except.ok [Except.ok ["x"]]⟩], Offset.default, none⟩
     [[Except.ok ["x"]]] [] ⟨⟨[[]]⟩, [(0, [Except.ok ["x"]])], []⟩
     0 1 (Except.ok ["x"]) [] true (by decide) (by decide) (by decide)⟩

/-- C4: if constructing the render surface fails (the `?` at src/widget.rs
line 132), `run_inner` — and with it the blocking `run` — returns that
error; the effect trace is empty, so no widget's `into_stream` is called,
no widget stream is polled, and no system event is processed. -/
theorem render_surface_failure_fail_fast (cnx : Cnx) (e : Err)
    (evNew : Except Err (List Event)) :
    runInner cnx (.error e) evNew = (.error e, []) := rfl

/-- C5: if a widget's `into_stream` fails during initialization (the `?`
at src/widget.rs line 137), `run_inner` returns that error before the
select-loop is entered: the result carries no `Running` state, and the
trace holds only the stream conversions of the widgets up to the failing
one — no `update_content` or `process_event` call occurs. -/
theorem into_stream_failure_aborts (cnx : Cnx) (ws₁ : List Widget)
    (strs₁ : List WStream) (w : Widget) (ws₂ : List Widget) (e : Err)
    (evNew : Except Err (List Event))
    (hsplit : cnx.widgets = ws₁ ++ w :: ws₂)
    (h1 : ws₁.map Widget.intoStream = strs₁.map Except.ok)
    (h2 : w.intoStream = .error e) :
    runInner cnx (.ok ()) evNew =
      (.error e, (List.range (ws₁.length + 1)).map Effect.intoStream) := by
  have herr := initLoop_error ws₁ strs₁ w ws₂ ⟨[]⟩ [] e h1 h2
  simp [runInner, hsplit, herr, List.range_eq_range']

/-- Witness for `into_stream_failure_aborts`: second of two widgets fails
to convert; the run aborts with its error after exactly the two stream
conversions, leaving no update or event effect. -/
theorem into_stream_failure_aborts_witness :
    (⟨Position.top, [⟨Except.ok [Except.ok ["x"]]⟩, ⟨Except.error "bad"⟩],
        Offset.default, none⟩ : Cnx).widgets =
      [⟨Except.ok [Except.ok ["x"]]⟩] ++ (⟨Except.error "bad"⟩ : Widget) :: [] ∧
    ([⟨Except.ok [Except.ok ["x"]]⟩] : List Widget).map Widget.intoStream =
      ([[Except.ok ["x"]]] : List WStream).map Except.ok ∧
    (⟨Except.error "bad"⟩ : Widget).intoStream = .error "bad" ∧
    runInner ⟨Position.top,
        [⟨Except.ok [Except.ok ["x"]]⟩, ⟨Except.error "bad"⟩],
        Offset.default, none⟩ (.ok ()) (.ok []) =
      (.error "bad", [Effect.intoStream 0, Effect.intoStream 1]) :=
  ⟨by decide, by decide, by decide,
   into_stream_failure_aborts
     ⟨Position.top, [⟨Except.ok [Except.ok ["x"]]⟩, ⟨Except.error "bad"⟩],
      Offset.default, none⟩
     [⟨Except.ok [Except.ok ["x"]]⟩] [[Except.ok ["x"]]]
     ⟨Except.error "bad"⟩ [] "bad" (.ok [])
     (by decide) (by decide) (by decide)⟩

/-- C6: per-update failures in the `Running` state are logged and
absorbed (src/widget.rs lines 146-148 and 157-159).  When
`bar.update_content` fails on an `Ok` emission of slot `s`, the loop
continues and the slot's stream stays in the multiplexer, holding its
later items; when `bar.process_event` fails on a system event, the loop
likewise continues; neither failure makes `run` return. -/
theorem per_update_failure_absorbed (st : LoopState) (s : Nat) (b : Batch)
    (r : Except Err Batch) (rs : WStream) (ev : Event) (evs : List Event)
    (hw : smLookup st.widgets s = some (.ok b :: r :: rs))
    (he : st.events = ev :: evs) :
    loopStep st (.widget s false) =
      (.continue { st with widgets := smSet st.widgets s (r :: rs) },
       [.updateContent s b false]) ∧
    smLookup (smSet st.widgets s (r :: rs)) s = some (r :: rs) ∧
    loopStep st (.event false) =
      (.continue { st with events := evs }, [.processEvent ev false]) := by
  refine ⟨?_, ?_, ?_⟩
  · simp [loopStep, hw]
  · exact smLookup_smSet_self st.widgets s (r :: rs) _ hw
  · simp [loopStep, he]

/-- Witness for `per_update_failure_absorbed`: slot 0's update fails while
a later item is pending, and a system event's handling fails; both steps
continue, with slot 0's stream still mapped. -/
theorem per_update_failure_absorbed_witness :
    smLookup [(0, [Except.ok ["n"], Except.ok ["m"]])] 0 =
      some (Except.ok ["n"] :: Except.ok ["m"] :: []) ∧
    (⟨⟨[["a"]]⟩, [(0, [Except.ok ["n"], Except.ok ["m"]])],
        [3]⟩ : LoopState).events = 3 :: [] ∧
    (loopStep ⟨⟨[["a"]]⟩, [(0, [Except.ok ["n"], Except.ok ["m"]])], [3]⟩
        (.widget 0 false) =
      (.continue ⟨⟨[["a"]]⟩, [(0, [Except.ok ["m"]])], [3]⟩,
       [.updateContent 0 ["n"] false]) ∧
     smLookup (smSet [(0, [Except.ok ["n"], Except.ok ["m"]])] 0
        [Except.ok ["m"]]) 0 = some [Except.ok ["m"]] ∧
     loopStep ⟨⟨[["a"]]⟩, [(0, [Except.ok ["n"], Except.ok ["m"]])], [3]⟩
        (.event false) =
      (.continue ⟨⟨[["a"]]⟩, [(0, [Except.ok ["n"], Except.ok ["m"]])], []⟩,
       [.processEvent 3 false])) :=
  ⟨by decide, by decide,
   per_update_failure_absorbed
     ⟨⟨[["a"]]⟩, [(0, [Except.ok ["n"], Except.ok ["m"]])], [3]⟩
     0 ["n"] (Except.ok ["m"]) [] 3 [] (by decide) (by decide)⟩

/-- C7: once the `Running` state is entered the select-loop only ever
continues: the loop body (src/widget.rs lines 142-164) has no `break` or
`return`, so every state — including one where every widget stream has
ended while the event source remains — and every branch resolution yield a
successor state, never a returned value; the blocking `run` can therefore
end only through an `Initializing`-phase error or external process
termination. -/
theorem running_loop_never_returns (st : LoopState) (c : Choice) :
    ∃ st' effs, loopStep st c = (.continue st', effs) :=
  loopStep_continue st c

/-- C8: the facade's configuration methods are pure builders:
`with_width w` yields a snapshot whose width is `w` with position, widget
list and offset unchanged, and `with_offset x y` yields a snapshot whose
offset is `{x, y}` with position, widget list and width unchanged
(src/widget.rs lines 85-87 and 96-101). -/
theorem builder_methods_pure (c : Cnx) (w : Option Nat) (x y : Int) :
    ((c.with_width w).width = w ∧
     (c.with_width w).position = c.position ∧
     (c.with_width w).widgets = c.widgets ∧
     (c.with_width w).offset = c.offset) ∧
    ((c.with_offset x y).offset = ⟨x, y⟩ ∧
     (c.with_offset x y).position = c.position ∧
     (c.with_offset x y).widgets = c.widgets ∧
     (c.with_offset x y).width = c.width) :=
  ⟨⟨rfl, rfl, rfl, rfl⟩, ⟨rfl, rfl, rfl, rfl⟩⟩

/-- C9: slot update is a pure overwrite: writing the same batch to the
same slot twice leaves the render surface exactly as writing it once — no
accumulation of content. -/
theorem update_content_idempotent (b : Bar0) (s : Nat) (v : Batch) :
    (b.update_content s v).update_content s v = b.update_content s v := by
  simp [Bar0.update_content, List.set_set]

/-- C10: `Cnx::new p` yields position `p`, an empty widget list, the zero
default offset and no width; and `with_width none` restores the no-width
default on any facade (src/widget.rs lines 68-76 and 85-87). -/
theorem cnx_new_defaults (p : Position) (c : Cnx) :
    Cnx.new p = ⟨p, [], ⟨0, 0⟩, none⟩ ∧ (c.with_width none).width = none :=
  ⟨rfl, rfl⟩
